import Mathlib

/-!
Shallow embedding of the Hack assembler of this repository
(src/project05-assembler/src/hack_assembler.rs).

The repository ships only the driver (`HackAssembler::new` / `HackAssembler::execute`).
The `Parser` and `SymbolTable` components it calls are declared in the crate but their
source is not under src/, so they are modelled from the spec (sections 3, 4.1 and 4.2),
each such definition carrying a doc comment that says so.  The driver itself is
translated directly from the Rust source.
-/

set_option autoImplicit false

namespace Hack

/-- The three instruction kinds of `parser::InstructionType`. -/
inductive InstructionType where
  | AInstruction
  | CInstruction
  | LInstruction
deriving DecidableEq, Repr

/-- Modelled from the spec: comments begin with the designated marker `//` and are
stripped before classification (spec section 3, "Source Line"). -/
def dropComment : List Char → List Char
  | [] => []
  | '/' :: '/' :: _ => []
  | c :: cs => c :: dropComment cs

def isWs (c : Char) : Bool := c == ' ' || c == '\t' || c == '\r'

/-- Modelled from the spec: leading/trailing whitespace is stripped before
classification (spec section 3, "Source Line"). -/
def trimWs (cs : List Char) : List Char :=
  ((cs.dropWhile isWs).reverse.dropWhile isWs).reverse

/-- A raw source line after comment stripping and trimming. -/
def cleanLine (s : String) : List Char :=
  trimWs (dropComment s.data)

/-- Modelled from the spec: `Parser::instruction_type` classifies a line as a label
declaration (`(...)`), an address instruction (`@...`), a compute instruction, or
no instruction at all for blank/comment-only lines (spec section 4.1). -/
def instruction_type (s : String) : Option InstructionType :=
  match cleanLine s with
  | [] => none
  | '(' :: _ => some InstructionType.LInstruction
  | '@' :: _ => some InstructionType.AInstruction
  | _ :: _ => some InstructionType.CInstruction

/-- Modelled from the spec: `Parser::symbol` extracts the operand token of an address
instruction (after `@`) or the name of a label declaration (between parentheses)
(spec section 4.1). -/
def symbol (s : String) : Option String :=
  match cleanLine s with
  | '@' :: rest => some (String.mk rest)
  | '(' :: rest => some (String.mk (rest.takeWhile (fun c => c != ')')))
  | _ => none

/-- Modelled from the spec: the fixed dest-field encoding table (spec section 4.1). -/
def destTable : List (String × String) :=
  [("M", "001"), ("D", "010"), ("MD", "011"), ("DM", "011"),
   ("A", "100"), ("AM", "101"), ("AD", "110"), ("DA", "110"),
   ("AMD", "111"), ("ADM", "111")]

/-- Modelled from the spec: the fixed jump-field encoding table (spec section 4.1). -/
def jumpTable : List (String × String) :=
  [("JGT", "001"), ("JEQ", "010"), ("JGE", "011"), ("JLT", "100"),
   ("JNE", "101"), ("JLE", "110"), ("JMP", "111")]

/-- Modelled from the spec: the fixed comp-field encoding table covering both the
`a=0` and `a=1` ALU variants; each value is the `a` bit followed by the six comp
bits (spec section 4.1). -/
def compTable : List (String × String) :=
  [("0", "0101010"), ("1", "0111111"), ("-1", "0111010"),
   ("D", "0001100"), ("A", "0110000"), ("M", "1110000"),
   ("!D", "0001101"), ("!A", "0110001"), ("!M", "1110001"),
   ("-D", "0001111"), ("-A", "0110011"), ("-M", "1110011"),
   ("D+1", "0011111"), ("A+1", "0110111"), ("M+1", "1110111"),
   ("D-1", "0001110"), ("A-1", "0110010"), ("M-1", "1110010"),
   ("D+A", "0000010"), ("D+M", "1000010"), ("D-A", "0010011"),
   ("D-M", "1010011"), ("A-D", "0000111"), ("M-D", "1000111"),
   ("D&A", "0000000"), ("D&M", "1000000"), ("D|A", "0010101"),
   ("D|M", "1010101")]

def lookupTable (t : List (String × String)) (s : String) : Option String :=
  (t.find? (fun p => p.1 == s)).map (fun p => p.2)

/-- Modelled from the spec: `Parser::dest` returns the 3-bit pattern of the optional
destination field (left of `=`); an absent destination is valid and encodes to the
no-op pattern `000`, while an unrecognized token is a lookup failure
(spec section 4.1). -/
def dest (line : String) : Option String :=
  if (cleanLine line).contains '=' then
    lookupTable destTable (String.mk ((cleanLine line).takeWhile (fun c => c != '=')))
  else some "000"

/-- Modelled from the spec: `Parser::jump` returns the 3-bit pattern of the optional
jump field (right of `;`); an absent jump is valid and encodes to the no-op
pattern `000`, while an unrecognized token is a lookup failure (spec section 4.1). -/
def jump (line : String) : Option String :=
  if (cleanLine line).contains ';' then
    lookupTable jumpTable (String.mk (((cleanLine line).dropWhile (fun c => c != ';')).tail))
  else some "000"

/-- The computation token of a compute instruction: between `=` (if any) and `;` (if any). -/
def compPart (line : String) : List Char :=
  (if (cleanLine line).contains '=' then ((cleanLine line).dropWhile (fun c => c != '=')).tail
   else cleanLine line).takeWhile (fun c => c != ';')

/-- Modelled from the spec: `Parser::comp` returns the 7-bit pattern (the `a` bit plus
6 comp bits) of the computation expression; an unrecognized mnemonic is a lookup
failure (spec section 4.1). -/
def comp (line : String) : Option String :=
  lookupTable compTable (String.mk (compPart line))

/-- The symbol table: a mapping from symbol name to address (spec section 4.2),
realised as an association list where the earliest entry wins on lookup. -/
structure SymbolTable where
  entries : List (String × Nat)
deriving DecidableEq, Repr

namespace SymbolTable

/-- Modelled from the spec: `SymbolTable::get_address` is the spec's `lookup(name)`,
returning the bound address if present (spec section 4.2). -/
def get_address (t : SymbolTable) (name : String) : Option Nat :=
  (t.entries.find? (fun p => p.1 == name)).map (fun p => p.2)

/-- Whether the name is bound (`SymbolTable::contains`, used by the crate's tests). -/
def contains (t : SymbolTable) (name : String) : Bool :=
  t.entries.any (fun p => p.1 == name)

/-- Modelled from the spec: `SymbolTable::add_entry` is the spec's
`bind_label(name, address)`, binding a symbol to an exact address, used for label
declarations in pass one (spec section 4.2).  Re-binding replaces the visible
binding (the repository's own tests require a label declaration to supersede an
earlier binding of the name). -/
def add_entry (t : SymbolTable) (name : String) (addr : Nat) : SymbolTable :=
  SymbolTable.mk ((name, addr) :: t.entries)

/-- Modelled from the spec: `SymbolTable::update_entry`, like the spec's
`allocate_variable`, binds the name only when it is not already bound, following
the spec's invariant that once bound a symbol's address never changes (spec
sections 3 and 4.2).  The repository's tests constrain the real operation only
partially — `LOOP` keeps its declaration value despite later `@LOOP` references,
while `i` and `sum` end at late counter values — so no uniform policy reproduces
every assertion and the spec's invariant is the policy modelled here; no claim's
verdict below rests on this policy choice. -/
def update_entry (t : SymbolTable) (name : String) (addr : Nat) : SymbolTable :=
  if t.contains name then t else SymbolTable.mk ((name, addr) :: t.entries)

/-- Modelled from the spec: `SymbolTable::new` is pre-populated with the fixed
architecture symbols at their fixed addresses (spec sections 3, 4.2 and 8). -/
def new : SymbolTable :=
  SymbolTable.mk
    [("SP", 0), ("LCL", 1), ("ARG", 2), ("THIS", 3), ("THAT", 4),
     ("R0", 0), ("R1", 1), ("R2", 2), ("R3", 3), ("R4", 4), ("R5", 5),
     ("R6", 6), ("R7", 7), ("R8", 8), ("R9", 9), ("R10", 10), ("R11", 11),
     ("R12", 12), ("R13", 13), ("R14", 14), ("R15", 15),
     ("SCREEN", 16384), ("KBD", 24576)]

end SymbolTable

/-- Binary digits of a natural number, most significant first (`0` renders as "0"),
as produced by Rust's `{:b}` formatting. -/
def toBinChars (n : Nat) : List Char :=
  (Nat.toDigits 2 n)

/-- Rust's `format!("{:016b}", v)` on a nonnegative value: the binary digits,
zero-padded on the left to a minimum width of 16. -/
def fmt016 (n : Nat) : String :=
  String.mk (List.replicate (16 - (toBinChars n).length) '0' ++ toBinChars n)

/-- Rust's `format!("{:016b}", v)` on an `i32`: a negative value renders as its
32-bit two's-complement bit pattern (32 characters, wider than the requested
minimum of 16), a nonnegative one as its binary digits padded to 16. -/
def fmt016i (v : Int) : String :=
  if 0 ≤ v then fmt016 v.toNat
  else String.mk (toBinChars (v + 2 ^ 32).toNat)

/-- Rust's `str::parse::<i32>`: an optional sign followed by one or more decimal
digits, rejecting anything else and values outside the `i32` range. -/
def parseI32 (s : String) : Option Int :=
  let cs := s.data
  let signed : Bool × List Char :=
    match cs with
    | '-' :: rest => (true, rest)
    | '+' :: rest => (false, rest)
    | _ => (false, cs)
  let ds := signed.2
  if ds.isEmpty then none
  else if ds.all (fun c => c.isDigit) then
    let n : Nat := ds.foldl (fun acc c => acc * 10 + (c.toNat - 48)) 0
    let v : Int := if signed.1 then -(n : Int) else (n : Int)
    if -(2 ^ 31) ≤ v ∧ v < 2 ^ 31 then some v else none
  else none

/-- One step of the driver's first pass (hack_assembler.rs, lines 33-48), threading
the symbol table and the parser's counter.  The counter is modelled from the spec:
the program counter starts at 0 and is advanced by one, after recording, only by
address/compute instructions (spec section 3, "Program Counter").  A label is bound
to `get_line_count() + 1` and an address operand is passed to `update_entry` with
the current counter, exactly as the driver does. -/
def passOneStep : SymbolTable × Nat → String → SymbolTable × Nat
  | (t, pc), line =>
    match instruction_type line with
    | some InstructionType.LInstruction =>
      match symbol line with
      | some s => (t.add_entry s (pc + 1), pc)
      | none => (t, pc)
    | some InstructionType.AInstruction =>
      match symbol line with
      | some s => (t.update_entry s pc, pc + 1)
      | none => (t, pc + 1)
    | some InstructionType.CInstruction => (t, pc + 1)
    | none => (t, pc)

/-- The bytes one iteration of the driver's second pass writes for one line
(hack_assembler.rs, lines 56-91): for an address instruction the symbol-table branch
writes `{:016b}\n` when the operand is bound, and, independently, the numeric branch
writes `{:016b}` (no newline) when the operand parses as an `i32`; for a compute
instruction it writes `111` followed by whichever of the comp/dest/jump lookups
succeed, and a newline. -/
def emitted (t : SymbolTable) (line : String) : String :=
  match instruction_type line with
  | some InstructionType.AInstruction =>
    match symbol line with
    | some s =>
      (match t.get_address s with
        | some add => fmt016 add ++ "\n"
        | none => "")
      ++ (match parseI32 s with
        | some num => fmt016i num
        | none => "")
    | none => ""
  | some InstructionType.CInstruction =>
    "111" ++ ((comp line).getD "") ++ ((dest line).getD "")
        ++ ((jump line).getD "") ++ "\n"
  | _ => ""

/-- One step of the driver's second pass: the bytes for this line are appended to the
output file, which is opened in append mode on every iteration. -/
def passTwoStep (t : SymbolTable) (out : String) (line : String) : String :=
  out ++ emitted t line

/-- The driver's line stream: `parser.advance()` yields `Some(Ok(line))` per readable
line; a `while let Some(Ok(line))` loop stops silently at the first read error. -/
def takeOk : List (Except Unit String) → List String
  | [] => []
  | Except.ok s :: rest => s :: takeOk rest
  | Except.error _ :: _ => []

deriving instance DecidableEq for Except

/-- What `HackAssembler::execute` leaves observable: its returned `Result`, the bytes
appended to the output file, and the final symbol table (inspected by the
repository's tests). -/
structure ExecResult where
  ret : Except Unit Unit
  output : String
  symbol_table : SymbolTable
deriving DecidableEq, Repr

/-- The state `HackAssembler::new` builds for a run: a fresh symbol table seeded by
`SymbolTable::new` (hack_assembler.rs, lines 18-30; the parser and the file-name
strings are external collaborators and carry no assembly state). -/
structure HackAssembler where
  symbol_table : SymbolTable
deriving DecidableEq, Repr

/-- `HackAssembler::new`: always starts from `SymbolTable::new()`. -/
def HackAssembler.new : HackAssembler :=
  HackAssembler.mk SymbolTable.new

/-- `HackAssembler::execute` (hack_assembler.rs, lines 32-98): pass one folds
`passOneStep` over every line the stream yields, then pass two re-reads the same
source and folds `passTwoStep` with the pass-one table.  Both `while let
Some(Ok(line))` loops stop silently at the first read error, the reinitialization
error branch only prints, and every fallible branch inside the loops is discarded,
so the function returns `Ok(())` on all of these paths. -/
def HackAssembler.execute (a : HackAssembler) (lines : List (Except Unit String)) :
    ExecResult :=
  let ls := takeOk lines
  let p1 := ls.foldl passOneStep (a.symbol_table, 0)
  let out := ls.foldl (passTwoStep p1.1) ""
  ExecResult.mk (Except.ok ()) out p1.1

/-- One whole invocation of the assembler as the repository's tests perform it:
`HackAssembler::new` followed by `execute`. -/
def invoke (lines : List (Except Unit String)) : ExecResult :=
  HackAssembler.execute HackAssembler.new lines

/-- Two consecutive invocations of the assembler on the same source, each one
constructing its own driver through `HackAssembler::new` as the repository's tests
do. -/
def runTwice (lines : List (Except Unit String)) : ExecResult × ExecResult :=
  (HackAssembler.execute HackAssembler.new lines,
   HackAssembler.execute HackAssembler.new lines)

/-- The fixed architecture symbols and their specified addresses: R0-R15, SCREEN,
KBD, SP, LCL, ARG, THIS and THAT (spec sections 3 and 8). -/
def archFixed : List (String × Nat) :=
  [("R0", 0), ("R1", 1), ("R2", 2), ("R3", 3), ("R4", 4), ("R5", 5),
   ("R6", 6), ("R7", 7), ("R8", 8), ("R9", 9), ("R10", 10), ("R11", 11),
   ("R12", 12), ("R13", 13), ("R14", 14), ("R15", 15),
   ("SCREEN", 16384), ("KBD", 24576),
   ("SP", 0), ("LCL", 1), ("ARG", 2), ("THIS", 3), ("THAT", 4)]

/-- The word the assembler emits for a `D=A` compute instruction, repeated `k` times,
each occurrence newline-terminated. -/
def cRep : Nat → String
  | 0 => ""
  | k + 1 => "1110110000010000\n" ++ cRep k

/-- A source whose only label declaration comes last, after the address instruction
that references it: `k` compute instructions, the forward reference `@FWD`, and
finally the declaration `(FWD)`. -/
def fwdLines (k : Nat) : List (Except Unit String) :=
  List.replicate k (Except.ok "D=A") ++ [Except.ok "@FWD", Except.ok "(FWD)"]

/-- A successful lookup in one of the fixed encoding tables returns the second
component of an entry of the table. -/
lemma lookupTable_mem {tbl : List (String × String)} {s v : String}
    (h : lookupTable tbl s = some v) : ∃ p, p ∈ tbl ∧ p.2 = v := by
  unfold lookupTable at h
  cases hf : tbl.find? (fun p => p.1 == s) with
  | none => rw [hf] at h; simp at h
  | some p =>
    rw [hf] at h
    simp only [Option.map_some'] at h
    exact ⟨p, List.mem_of_find?_eq_some hf, Option.some.inj h⟩

/-- Every comp pattern the parser can return has exactly 7 bits. -/
lemma comp_length {line c : String} (h : comp line = some c) : c.length = 7 := by
  obtain ⟨p, hpmem, hpv⟩ := lookupTable_mem h
  have hall : ∀ q ∈ compTable, (q.2).length = 7 := by decide
  rw [← hpv]
  exact hall p hpmem

/-- Every dest pattern the parser can return has exactly 3 bits. -/
lemma dest_length {line d : String} (h : dest line = some d) : d.length = 3 := by
  unfold dest at h
  split at h
  · obtain ⟨p, hpmem, hpv⟩ := lookupTable_mem h
    have hall : ∀ q ∈ destTable, (q.2).length = 3 := by decide
    rw [← hpv]
    exact hall p hpmem
  · rw [← Option.some.inj h]
    decide

/-- Every jump pattern the parser can return has exactly 3 bits. -/
lemma jump_length {line j : String} (h : jump line = some j) : j.length = 3 := by
  unfold jump at h
  split at h
  · obtain ⟨p, hpmem, hpv⟩ := lookupTable_mem h
    have hall : ∀ q ∈ jumpTable, (q.2).length = 3 := by decide
    rw [← hpv]
    exact hall p hpmem
  · rw [← Option.some.inj h]
    decide

/-- The lines pass one and pass two actually see for the forward-reference family:
the read stream has no errors, so every line is kept. -/
lemma takeOk_fwd (k : Nat) :
    takeOk (fwdLines k) = List.replicate k "D=A" ++ ["@FWD", "(FWD)"] := by
  induction k with
  | zero => rfl
  | succ k ih =>
    rw [show fwdLines (k + 1) = Except.ok "D=A" :: fwdLines k from by
      rw [fwdLines, fwdLines, List.replicate_succ, List.cons_append]]
    rw [List.replicate_succ, List.cons_append]
    simp only [takeOk]
    rw [ih]

/-- Pass one over `k` compute instructions leaves the table unchanged and advances
the counter by `k`. -/
lemma passOne_replicate (k : Nat) (t : SymbolTable) (pc : Nat) :
    (List.replicate k "D=A").foldl passOneStep (t, pc) = (t, pc + k) := by
  induction k generalizing pc with
  | zero => rfl
  | succ k ih =>
    rw [List.replicate_succ, List.foldl_cons]
    rw [show passOneStep (t, pc) "D=A" = (t, pc + 1) from rfl]
    rw [ih (pc + 1), Nat.add_assoc, Nat.add_comm 1 k]

/-- Pass two over `k` compute instructions appends `k` copies of the `D=A` word. -/
lemma passTwo_replicate (t : SymbolTable) (k : Nat) (out : String) :
    (List.replicate k "D=A").foldl (passTwoStep t) out = out ++ cRep k := by
  induction k generalizing out with
  | zero => simp [cRep]
  | succ k ih =>
    rw [List.replicate_succ, List.foldl_cons, ih]
    rw [show passTwoStep t out "D=A" = out ++ "1110110000010000\n" from rfl]
    conv_rhs => rw [cRep]
    rw [String.append_assoc]

/-- The final symbol table of a run is the fold of pass one over the readable lines. -/
lemma execute_symbol_table (a : HackAssembler) (lines : List (Except Unit String)) :
    (HackAssembler.execute a lines).symbol_table =
      ((takeOk lines).foldl passOneStep (a.symbol_table, 0)).1 := rfl

/-- The output of a run is the fold of pass two, using the pass-one table, over the
readable lines. -/
lemma execute_output (a : HackAssembler) (lines : List (Except Unit String)) :
    (HackAssembler.execute a lines).output =
      (takeOk lines).foldl
        (passTwoStep ((takeOk lines).foldl passOneStep (a.symbol_table, 0)).1) "" := rfl

/-- C1: the claim says a label declaration is bound to the current program counter,
so in `@1 / (L) / @L / 0;JMP` the label `L` (declared after one real instruction)
should resolve to address 1, the instruction immediately following the declaration.
The driver instead binds the label to `get_line_count() + 1`, so `L` ends up bound
to 2 and the word emitted for `@L` is the binary rendering of 2, one past the
address the claim requires. -/
theorem claim1_label_binding :
    (invoke [Except.ok "@1", Except.ok "(L)", Except.ok "@L", Except.ok "0;JMP"]).symbol_table.get_address "L" = some 2 ∧
    (invoke [Except.ok "@1", Except.ok "(L)", Except.ok "@L", Except.ok "0;JMP"]).output =
      "0000000000000000\n" ++ "0000000000000001" ++ "0000000000000010\n" ++ "1110101010000111\n" := by
  decide

/-- C2: the claim says a fresh non-numeric address operand gets an address only in
pass two, monotonically from 16.  The driver instead binds it during pass one, via
`update_entry`, to the parser's counter value at the point of first reference: in
`@x / @y / 0;JMP` the variables `x` and `y` end up at 0 and 1, not 16 and 17, and
the emitted words render those counter values. -/
theorem claim2_variable_allocation :
    (invoke [Except.ok "@x", Except.ok "@y", Except.ok "0;JMP"]).symbol_table.get_address "x" = some 0 ∧
    (invoke [Except.ok "@x", Except.ok "@y", Except.ok "0;JMP"]).symbol_table.get_address "y" = some 1 ∧
    (invoke [Except.ok "@x", Except.ok "@y", Except.ok "0;JMP"]).output =
      "0000000000000000\n0000000000000001\n1110101010000111\n" := by
  decide

/-- C3: the claim says a failed line read is surfaced to the caller and no partial
output is produced.  The driver's `while let Some(Ok(line))` loops instead stop
silently at the first read error: on a stream whose second read fails, `execute`
still returns `Ok(())` and the partial output for the first line has been written. -/
theorem claim3_error_swallowed :
    (invoke [Except.ok "D=A", Except.error (), Except.ok "D=A"]).ret = Except.ok () ∧
    (invoke [Except.ok "D=A", Except.error (), Except.ok "D=A"]).output = "1110110000010000\n" := by
  decide

/-- C4: for a line classified as a compute instruction whose comp, dest and jump
lookups all succeed, the word the driver appends is exactly `111` followed by the
7-bit comp, 3-bit dest and 3-bit jump patterns — 16 bits — and a compute
instruction with no `=` and no `;` encodes dest and jump as `000` rather than
failing. -/
theorem claim4_compute_encoding (t : SymbolTable) (out line c d j : String)
    (hty : instruction_type line = some InstructionType.CInstruction)
    (hc : comp line = some c) (hd : dest line = some d) (hj : jump line = some j) :
    passTwoStep t out line = out ++ ("111" ++ c ++ d ++ j ++ "\n") ∧
    ("111" ++ c ++ d ++ j).length = 16 ∧
    ((cleanLine line).contains '=' = false → d = "000") ∧
    ((cleanLine line).contains ';' = false → j = "000") := by
  refine ⟨?_, ?_, ?_, ?_⟩
  · unfold passTwoStep emitted
    rw [hty, hc, hd, hj]
    simp [String.append_assoc]
  · have lc := comp_length hc
    have ld := dest_length hd
    have lj := jump_length hj
    simp only [String.length_append, lc, ld, lj]
    decide
  · intro hno
    unfold dest at hd
    rw [hno] at hd
    simp at hd
    exact hd.symm
  · intro hno
    unfold jump at hj
    rw [hno] at hj
    simp at hj
    exact hj.symm

/-- C4 witness: the destination-less, jump-less compute instruction `D+1` encodes to
the 16-bit word `1110011111000000` with dest and jump both `000`. -/
theorem claim4_compute_encoding_witness :
    passTwoStep SymbolTable.new "" "D+1" = "" ++ ("111" ++ "0011111" ++ "000" ++ "000" ++ "\n") ∧
    (("111" : String) ++ "0011111" ++ "000" ++ "000").length = 16 ∧
    ((cleanLine "D+1").contains '=' = false → ("000" : String) = "000") ∧
    ((cleanLine "D+1").contains ';' = false → ("000" : String) = "000") :=
  claim4_compute_encoding SymbolTable.new "" "D+1" "0011111" "000" "000"
    (by decide) (by decide) (by decide) (by decide)

/-- C5: the claim says `@2` emits exactly the 16-bit binary representation of 2.
Because pass one also put the operand `2` into the symbol table, pass two's
symbol-table branch first writes the binary rendering of the bound counter value
(with a newline) and the numeric branch then writes the value of 2 without a
newline: the output is neither the claimed word alone nor newline-terminated. -/
theorem claim5_numeric_operand :
    (invoke [Except.ok "@2"]).output = "0000000000000000\n0000000000000010" ∧
    (invoke [Except.ok "@2"]).output ≠ "0000000000000010\n" ∧
    (invoke [Except.ok "@2"]).output ≠ "0000000000000010" := by
  decide

/-- C6: the claim says the output is one newline-terminated 16-character word per
executable instruction, in source order.  For `@5 / D=A` the driver emits two words
for the single address instruction, and the second of them is not
newline-terminated, so the compute word lands on the same line. -/
theorem claim6_output_format :
    (invoke [Except.ok "@5", Except.ok "D=A"]).output =
      "0000000000000000\n00000000000001011110110000010000\n" ∧
    (invoke [Except.ok "@5", Except.ok "D=A"]).output ≠
      "0000000000000101\n1110110000010000\n" := by
  decide

/-- C7 counterexample: the claim says no operation of the assembler ever reassigns a
pre-seeded entry, yet running the assembler on `D=A / (R0)` rebinds the pre-seeded
register `R0` from 0 to 2 through the label-declaration path (`add_entry`). -/
theorem claim7_preseeded_reassigned :
    SymbolTable.new.get_address "R0" = some 0 ∧
    (invoke [Except.ok "D=A", Except.ok "(R0)"]).symbol_table.get_address "R0" = some 2 := by
  decide

/-- C7 amended: before any assembly runs, lookup on the pre-seeded table
`SymbolTable::new` returns the specified fixed address of every fixed architecture
symbol (R0-R15, SCREEN, KBD, SP, LCL, ARG, THIS, THAT); the immutability half of
the original claim fails, since a label declaration reusing a pre-seeded name
rebinds it (see the counterexample). -/
theorem claim7_amended :
    (archFixed.all fun p => SymbolTable.new.get_address p.1 == some p.2) = true := by
  decide

/-- C8: two invocations of the assembler on the same source, each constructed by
`HackAssembler::new` as the repository's tests do, produce identical output
content, and every invocation starts from the table `SymbolTable::new` seeds, whose
entries are exactly architecture constants — no variable binding of a previous run
is carried over. -/
theorem claim8_fresh_invocations (lines : List (Except Unit String)) :
    (runTwice lines).1.output = (runTwice lines).2.output ∧
    HackAssembler.new.symbol_table = SymbolTable.new ∧
    (SymbolTable.new.entries.all fun p => archFixed.contains p) = true :=
  ⟨rfl, rfl, by decide⟩

/-- C9: pass one scans the whole source before pass two writes anything: in a
program of `k` compute instructions followed by `@FWD` and only then the
declaration `(FWD)`, the word emitted for the forward reference renders the
binding created by the label declaration at the very end of the source (`k + 2`),
not the provisional pass-one binding of the reference itself (`k`), so no word was
produced before every label declaration had been processed. -/
theorem claim9_forward_reference (k : Nat) :
    (invoke (fwdLines k)).symbol_table.get_address "FWD" = some (k + 2) ∧
    (invoke (fwdLines k)).output = cRep k ++ (fmt016 (k + 2) ++ "\n") := by
  have htk := takeOk_fwd k
  constructor
  · rw [show invoke (fwdLines k) = HackAssembler.execute HackAssembler.new (fwdLines k) from rfl]
    rw [execute_symbol_table, htk, List.foldl_append, passOne_replicate, Nat.zero_add]
    rfl
  · rw [show invoke (fwdLines k) = HackAssembler.execute HackAssembler.new (fwdLines k) from rfl]
    rw [execute_output, htk]
    rw [List.foldl_append (f := passOneStep), passOne_replicate, Nat.zero_add]
    rw [List.foldl_append, passTwo_replicate]
    rw [List.foldl_cons, List.foldl_cons, List.foldl_nil]
    rw [show ∀ x : String,
      passTwoStep (List.foldl passOneStep (HackAssembler.new.symbol_table, k) ["@FWD", "(FWD)"]).1 x "@FWD" =
      x ++ ((fmt016 (k + 2) ++ "\n") ++ "") from fun x => rfl]
    rw [show ∀ x : String,
      passTwoStep (List.foldl passOneStep (HackAssembler.new.symbol_table, k) ["@FWD", "(FWD)"]).1 x "(FWD)" =
      x ++ "" from fun x => rfl]
    simp [String.append_assoc]

/-- C10 counterexample: the claim says `@-1` is handled as a number, with the
32-character two's-complement rendering written, rather than being treated as a
symbol name.  The driver does write those 32 ones, but it also bound the operand
`-1` as a symbol during pass one and first emits the 16-character word for that
binding, so the output is not the 32-character rendering alone. -/
theorem claim10_negative_also_symbol :
    (invoke [Except.ok "@-1"]).output = "0000000000000000\n11111111111111111111111111111111" ∧
    (invoke [Except.ok "@-1"]).output ≠ "11111111111111111111111111111111" := by
  decide

/-- C10 amended: `parse::<i32>` accepts the negative literal `-1` and the numeric
branch writes its 32-character two's-complement rendering without a newline — but
only after the symbol-table branch has emitted the 16-bit word for the pass-one
binding of the operand `-1`. -/
theorem claim10_amended :
    (invoke [Except.ok "D=A", Except.ok "@-1"]).output =
      "1110110000010000\n0000000000000001\n11111111111111111111111111111111" ∧
    parseI32 "-1" = some (-1) ∧
    (fmt016i (-1)).length = 32 := by
  decide

end Hack
